import Mathlib

/-!
Verification development for the query-utilities module of
lightspeed-stack (`src/utils/query.py`).

The module has three independent pieces:
- a payload builder (`prepare_text_input`, `prepare_input`) turning a
  `QueryRequest` into either a plain string or a multimodal message list;
- an argument parser (`parse_arguments_string`) recovering a mapping from
  a possibly-malformed JSON-ish string;
- a violation-stream emitter (`create_violation_stream`) producing a fixed
  finite sequence of streaming protocol events.

Python data is embedded shallowly: Pydantic models become structures,
`Optional[list[...]]` becomes `Option (List ...)`, the async generator
becomes the finite list of events it yields, Python dicts with fixed key
sets become structures or inductive content items, and `json.loads`
is modelled by an executable recursive-descent JSON parser.
-/

/-- An attachment of a `QueryRequest` (from `models.requests.Attachment`):
an `attachment_type` label, a MIME `content_type`, and string `content`. -/
structure Attachment where
  attachment_type : String
  content_type : String
  content : String
  deriving DecidableEq, Repr

/-- A query request (from `models.requests.QueryRequest`): the query text and
an optional list of attachments (`None` and `[]` are both "no attachments"). -/
structure QueryRequest where
  query : String
  attachments : Option (List Attachment)
  deriving DecidableEq, Repr

namespace constants

/-- Modelled from the spec: the repository's `constants.py` (not under the
provided sources; only its import site is) defines the fixed image MIME set.
The spec fixes it as `image/png, image/jpeg, image/gif, image/webp`. -/
def ATTACHMENT_IMAGE_CONTENT_TYPES : List String :=
  ["image/png", "image/jpeg", "image/gif", "image/webp"]

end constants

/-- `attachment.content_type in constants.ATTACHMENT_IMAGE_CONTENT_TYPES`. -/
def isImageAttachment (a : Attachment) : Bool :=
  constants.ATTACHMENT_IMAGE_CONTENT_TYPES.contains a.content_type

/-- The block `prepare_text_input` appends for one attachment:
`"\n\n[Attachment: {attachment_type}] <image>"` for an image attachment,
`"\n\n[Attachment: {attachment_type}]\n{content}"` otherwise. -/
def textInputBlock (a : Attachment) : String :=
  if isImageAttachment a then
    "\n\n[Attachment: " ++ a.attachment_type ++ "] <image>"
  else
    "\n\n[Attachment: " ++ a.attachment_type ++ "]\n" ++ a.content

/-- `prepare_text_input(query_request)`: the query text with one block
appended per attachment, via the same left-to-right accumulation loop as
the source (`input_text += ...`). -/
def prepare_text_input (query_request : QueryRequest) : String :=
  (query_request.attachments.getD []).foldl
    (fun input_text attachment => input_text ++ textInputBlock attachment)
    query_request.query

/-- The block `prepare_input` appends for a non-image attachment:
`"\n\n[Attachment: {attachment_type}]\n{content}"`. -/
def plainBlock (a : Attachment) : String :=
  "\n\n[Attachment: " ++ a.attachment_type ++ "]\n" ++ a.content

/-- One element of a multimodal message's `content` list: either
`{"type": "input_text", "text": ...}` or
`{"type": "input_image", "detail": ..., "image_url": ...}`. -/
inductive ContentItem where
  | input_text (text : String)
  | input_image (detail : String) (image_url : String)
  deriving DecidableEq, Repr

/-- The multimodal message dict `{"role": ..., "type": ..., "content": ...}`. -/
structure MultimodalMessage where
  role : String
  type : String
  content : List ContentItem
  deriving DecidableEq, Repr

/-- The polymorphic return of `prepare_input`: a plain string, or a list of
multimodal messages. -/
inductive PreparedInput where
  | text (s : String)
  | multimodal (msgs : List MultimodalMessage)
  deriving DecidableEq, Repr

/-- `prepare_input(query_request)`, mirroring the source: compute
`has_images`; if false accumulate the plain-text form and return a string;
otherwise build `text_content` from the query plus non-image attachments,
then append one `input_image` item per image attachment. -/
def prepare_input (query_request : QueryRequest) : PreparedInput :=
  let attachments := query_request.attachments.getD []
  let has_images := attachments.any isImageAttachment
  if !has_images then
    .text (attachments.foldl
      (fun input_text attachment => input_text ++ plainBlock attachment)
      query_request.query)
  else
    let text_content := attachments.foldl
      (fun tc attachment =>
        if !isImageAttachment attachment then tc ++ plainBlock attachment else tc)
      query_request.query
    let content_items := attachments.foldl
      (fun items attachment =>
        if isImageAttachment attachment then
          items ++ [ContentItem.input_image "auto"
            ("data:" ++ attachment.content_type ++ ";base64," ++ attachment.content)]
        else items)
      [ContentItem.input_text text_content]
    .multimodal [{ role := "user", type := "message", content := content_items }]

/-- Boolean substring test, modelling Python's `in` on strings: `t` occurs
somewhere inside `s`. -/
def containsSubstr (s t : String) : Bool :=
  (List.range (s.data.length + 1)).any (fun i => t.data.isPrefixOf (s.data.drop i))

/-- `OpenAIResponseOutputMessageContentOutputText(text=...)`. -/
structure OpenAIResponseOutputMessageContentOutputText where
  text : String
  deriving DecidableEq, Repr

/-- `OpenAIResponseMessage(id=..., content=..., role=..., status=...)`. -/
structure OpenAIResponseMessage where
  id : String
  content : List OpenAIResponseOutputMessageContentOutputText
  role : String
  status : String
  deriving DecidableEq, Repr

/-- `OpenAIResponseObject`: the response object retained by the emitter, with
the fields the source sets (`id`, `created_at`, `model`, `output`, `status`). -/
structure OpenAIResponseObject where
  id : String
  created_at : Nat
  model : String
  output : List OpenAIResponseMessage
  status : String
  deriving DecidableEq, Repr

/-- `OpenAIResponseContentPartOutputText(text=...)`. -/
structure OpenAIResponseContentPartOutputText where
  text : String
  deriving DecidableEq, Repr

/-- One streaming event (`OpenAIResponseObjectStream`), one constructor per
event class the source yields, with the keyword arguments it passes. -/
inductive OpenAIResponseObjectStream where
  | ResponseCreated (response : OpenAIResponseObject)
  | ContentPartAdded (content_index : Nat) (response_id : String) (item_id : String)
      (output_index : Nat) (part : OpenAIResponseContentPartOutputText)
      (sequence_number : Nat)
  | OutputTextDelta (content_index : Nat) (delta : String) (item_id : String)
      (output_index : Nat) (sequence_number : Nat)
  | OutputTextDone (content_index : Nat) (text : String) (item_id : String)
      (output_index : Nat) (sequence_number : Nat)
  | ResponseCompleted (response : OpenAIResponseObject)
  deriving DecidableEq, Repr

/-- Python's `x or default` on an optional string: `None` and the empty
string are falsy, any other string is returned unchanged. -/
def orDefaultStr (x : Option String) (default : String) : String :=
  match x with
  | none => default
  | some s => if s = "" then default else s

/-- `create_violation_stream(message, shield_model)`: the finite sequence of
events the async generator yields, in yield order. The mutation of the
retained response object before the last yield is embedded as a record
update of the object built at the start. -/
def create_violation_stream (message : String) (shield_model : Option String) :
    List OpenAIResponseObjectStream :=
  let response_id := "resp_shield_violation"
  let response_obj : OpenAIResponseObject :=
    { id := response_id
      created_at := 0
      model := orDefaultStr shield_model "shield"
      output := []
      status := "in_progress" }
  let final_obj : OpenAIResponseObject :=
    { response_obj with
        output := [{ id := "msg_shield_violation_4"
                     content := [{ text := message }]
                     role := "assistant"
                     status := "completed" }]
        status := "completed" }
  [ .ResponseCreated response_obj
  , .ContentPartAdded 0 response_id "msg_shield_violation_1" 0 { text := "" } 0
  , .OutputTextDelta 1 message "msg_shield_violation_2" 1 1
  , .OutputTextDone 2 message "msg_shield_violation_3" 2 2
  , .ResponseCompleted final_obj ]

/-- A parsed JSON value (the result type of the model of `json.loads`).
Numeric literals are modelled on the integer fragment of JSON. -/
inductive JsonValue where
  | null
  | bool (b : Bool)
  | num (n : Int)
  | str (s : String)
  | arr (elems : List JsonValue)
  | obj (entries : List (String × JsonValue))

/-- The opening-brace character. -/
def lbraceChar : Char := Char.ofNat 123

/-- The closing-brace character. -/
def rbraceChar : Char := Char.ofNat 125

/-- The double-quote character. -/
def dquoteChar : Char := Char.ofNat 34

/-- The backslash character. -/
def bslashChar : Char := Char.ofNat 92

/-- JSON insignificant whitespace. -/
def isJsonWs (c : Char) : Bool :=
  c = ' ' || c = Char.ofNat 9 || c = Char.ofNat 10 || c = Char.ofNat 13

/-- Drop leading JSON whitespace. -/
def skipWs (cs : List Char) : List Char := cs.dropWhile isJsonWs

/-- Hexadecimal digit value. -/
def hexVal (c : Char) : Option Nat :=
  if c.isDigit then some (c.toNat - 48)
  else if 97 ≤ c.toNat && c.toNat ≤ 102 then some (c.toNat - 87)
  else if 65 ≤ c.toNat && c.toNat ≤ 70 then some (c.toNat - 55)
  else none

/-- Parse the body of a JSON string literal after the opening quote, with the
standard escapes; raw control characters are rejected, as in `json.loads`.
Fuel-indexed; each step consumes at least one character. -/
def parseStringChars : Nat → List Char → List Char → Option (String × List Char)
  | 0, _, _ => none
  | _ + 1, _, [] => none
  | fuel + 1, acc, c :: rest =>
    if c = dquoteChar then some (String.mk acc.reverse, rest)
    else if c = bslashChar then
      match rest with
      | [] => none
      | e :: rest2 =>
        if e = dquoteChar then parseStringChars fuel (dquoteChar :: acc) rest2
        else if e = bslashChar then parseStringChars fuel (bslashChar :: acc) rest2
        else if e = '/' then parseStringChars fuel ('/' :: acc) rest2
        else if e = 'b' then parseStringChars fuel (Char.ofNat 8 :: acc) rest2
        else if e = 'f' then parseStringChars fuel (Char.ofNat 12 :: acc) rest2
        else if e = 'n' then parseStringChars fuel (Char.ofNat 10 :: acc) rest2
        else if e = 'r' then parseStringChars fuel (Char.ofNat 13 :: acc) rest2
        else if e = 't' then parseStringChars fuel (Char.ofNat 9 :: acc) rest2
        else if e = 'u' then
          match rest2 with
          | h1 :: h2 :: h3 :: h4 :: rest3 =>
            match hexVal h1, hexVal h2, hexVal h3, hexVal h4 with
            | some a, some b, some c3, some d =>
              parseStringChars fuel
                (Char.ofNat (((a * 16 + b) * 16 + c3) * 16 + d) :: acc) rest3
            | _, _, _, _ => none
          | _ => none
        else none
    else if c.toNat < 32 then none
    else parseStringChars fuel (c :: acc) rest

/-- Decimal digits to an integer. -/
def digitsToInt (ds : List Char) : Int :=
  ds.foldl (fun n c => n * 10 + ((c.toNat : Int) - 48)) 0

/-- Parse a JSON integer numeral (optional minus sign, then digits). -/
def parseNumber (cs : List Char) : Option (JsonValue × List Char) :=
  match cs with
  | c :: rest =>
    if c = '-' then
      let ds := rest.takeWhile Char.isDigit
      if ds.isEmpty then none
      else some (JsonValue.num (-(digitsToInt ds)), rest.dropWhile Char.isDigit)
    else
      let ds := cs.takeWhile Char.isDigit
      if ds.isEmpty then none
      else some (JsonValue.num (digitsToInt ds), cs.dropWhile Char.isDigit)
  | [] => none

/-- Insert a key/value pair as Python `dict` construction does: a duplicate
key keeps its first position and takes the last value. -/
def pyDictInsert (m : List (String × JsonValue)) (k : String) (v : JsonValue) :
    List (String × JsonValue) :=
  if m.any (fun p => p.1 == k) then
    m.map (fun p => if p.1 == k then (k, v) else p)
  else m ++ [(k, v)]

mutual

/-- Parse one JSON value from the head of the input (no leading whitespace).
Fuel-indexed to make the mutual recursion structural. -/
def parseValue : Nat → List Char → Option (JsonValue × List Char)
  | 0, _ => none
  | _ + 1, [] => none
  | fuel + 1, c :: rest =>
    if c = lbraceChar then
      match skipWs rest with
      | d :: rest2 =>
        if d = rbraceChar then some (JsonValue.obj [], rest2)
        else
          match parseMembers fuel [] (d :: rest2) with
          | some (entries, rest3) => some (JsonValue.obj entries, rest3)
          | none => none
      | [] => none
    else if c = '[' then
      match skipWs rest with
      | d :: rest2 =>
        if d = ']' then some (JsonValue.arr [], rest2)
        else
          match parseElements fuel [] (d :: rest2) with
          | some (elems, rest3) => some (JsonValue.arr elems, rest3)
          | none => none
      | [] => none
    else if c = dquoteChar then
      match parseStringChars (rest.length + 1) [] rest with
      | some (s, rest2) => some (JsonValue.str s, rest2)
      | none => none
    else if c = 't' then
      match rest with
      | 'r' :: 'u' :: 'e' :: rest2 => some (JsonValue.bool true, rest2)
      | _ => none
    else if c = 'f' then
      match rest with
      | 'a' :: 'l' :: 's' :: 'e' :: rest2 => some (JsonValue.bool false, rest2)
      | _ => none
    else if c = 'n' then
      match rest with
      | 'u' :: 'l' :: 'l' :: rest2 => some (JsonValue.null, rest2)
      | _ => none
    else if c = '-' || c.isDigit then parseNumber (c :: rest)
    else none

/-- Parse the members of a JSON object, positioned at the start of a key
(no leading whitespace), accumulating into a Python-style dict. -/
def parseMembers : Nat → List (String × JsonValue) → List Char →
    Option (List (String × JsonValue) × List Char)
  | 0, _, _ => none
  | _ + 1, _, [] => none
  | fuel + 1, acc, c :: rest =>
    if c = dquoteChar then
      match parseStringChars (rest.length + 1) [] rest with
      | some (k, rest2) =>
        match skipWs rest2 with
        | ':' :: rest3 =>
          match parseValue fuel (skipWs rest3) with
          | some (v, rest4) =>
            match skipWs rest4 with
            | ',' :: rest5 => parseMembers fuel (pyDictInsert acc k v) (skipWs rest5)
            | d :: rest5 =>
              if d = rbraceChar then some (pyDictInsert acc k v, rest5) else none
            | [] => none
          | none => none
        | _ => none
      | none => none
    else none

/-- Parse the elements of a JSON array, positioned at the start of a value
(no leading whitespace). -/
def parseElements : Nat → List JsonValue → List Char →
    Option (List JsonValue × List Char)
  | 0, _, _ => none
  | fuel + 1, acc, cs =>
    match parseValue fuel cs with
    | some (v, rest) =>
      match skipWs rest with
      | ',' :: rest2 => parseElements fuel (acc ++ [v]) (skipWs rest2)
      | ']' :: rest2 => some (acc ++ [v], rest2)
      | _ => none
    | none => none

end

/-- Model of Python's `json.loads` restricted to the values above: parse one
JSON value and require only whitespace to remain; `none` models a raised
`json.JSONDecodeError`/`ValueError`. -/
def json_loads (s : String) : Option JsonValue :=
  let cs := skipWs s.data
  match parseValue (2 * cs.length + 2) cs with
  | some (v, rest) => if (skipWs rest).isEmpty then some v else none
  | none => none

/-- Model of Python's `str.strip()`: remove leading and trailing whitespace. -/
def py_strip (s : String) : String :=
  String.mk (((s.data.dropWhile Char.isWhitespace).reverse.dropWhile
    Char.isWhitespace).reverse)

/-- Model of Python's `str.startswith(t)`. -/
def py_startswith (s t : String) : Bool := t.data.isPrefixOf s.data

/-- `parse_arguments_string(arguments_str)`, mirroring the source's three
tiers: strict parse of the string as-is (returned only when it is a dict);
otherwise, when the stripped string is non-empty and does not start with an
opening brace, strict parse of the stripped string wrapped in braces
(returned only when it is a dict); otherwise the `\x7b"args": arguments_str\x7d`
fallback. The result models the returned Python dict as an ordered
association list. -/
def parse_arguments_string (arguments_str : String) : List (String × JsonValue) :=
  match json_loads arguments_str with
  | some (JsonValue.obj entries) => entries
  | _ =>
    let stripped := py_strip arguments_str
    if !stripped.data.isEmpty && !py_startswith stripped "\x7b" then
      match json_loads ("\x7b" ++ stripped ++ "\x7d") with
      | some (JsonValue.obj entries) => entries
      | _ => [("args", JsonValue.str arguments_str)]
    else [("args", JsonValue.str arguments_str)]

/-- The entries of a parse result when it is a JSON object, else `none`
(discriminates the "is a dict" check of the source). -/
def objEntries : Option JsonValue → Option (List (String × JsonValue))
  | some (JsonValue.obj entries) => some entries
  | _ => none


section FoldLemmas

/-- Folding string append over a list factors through the empty accumulator. -/
theorem foldl_str_append_acc (l : List String) :
    ∀ acc : String,
      l.foldl (fun r s => r ++ s) acc = acc ++ l.foldl (fun r s => r ++ s) "" := by
  induction l with
  | nil => intro acc; simp
  | cons s t ih =>
    intro acc
    simp only [List.foldl_cons, String.empty_append]
    rw [ih (acc ++ s), ih s]
    simp [String.append_assoc]

/-- `String.join` of a cons. -/
theorem stringJoin_cons (s : String) (l : List String) :
    String.join (s :: l) = s ++ String.join l := by
  simp only [String.join, List.foldl_cons, String.empty_append]
  rw [foldl_str_append_acc l s]

/-- Accumulating string blocks with `foldl` equals the initial string followed
by the concatenation of blocks. -/
theorem foldl_append_eq_join (f : Attachment → String) :
    ∀ (l : List Attachment) (acc : String),
      l.foldl (fun s a => s ++ f a) acc = acc ++ String.join (l.map f) := by
  intro l
  induction l with
  | nil => intro acc; simp [String.join]
  | cons a t ih =>
    intro acc
    simp only [List.foldl_cons, List.map_cons, stringJoin_cons]
    rw [ih]
    simp [String.append_assoc]

/-- Conditionally accumulating string blocks equals concatenating the blocks
of the filtered list. -/
theorem foldl_ite_append_eq_join (p : Attachment → Bool) (f : Attachment → String) :
    ∀ (l : List Attachment) (acc : String),
      l.foldl (fun s a => if p a then s ++ f a else s) acc
        = acc ++ String.join ((l.filter p).map f) := by
  intro l
  induction l with
  | nil => intro acc; simp [String.join]
  | cons a t ih =>
    intro acc
    by_cases h : p a
    · simp only [List.foldl_cons, h, if_pos, List.filter_cons_of_pos h, List.map_cons,
        stringJoin_cons]
      rw [ih]
      simp [String.append_assoc]
    · simp only [List.foldl_cons, h, Bool.false_eq_true, if_false,
        List.filter_cons_of_neg (by simpa using h)]
      rw [ih]

/-- Conditionally appending singleton items with `foldl` equals the initial
items followed by the map of the filtered list. -/
theorem foldl_ite_snoc_eq_map (p : Attachment → Bool) (g : Attachment → ContentItem) :
    ∀ (l : List Attachment) (acc : List ContentItem),
      l.foldl (fun items a => if p a then items ++ [g a] else items) acc
        = acc ++ (l.filter p).map g := by
  intro l
  induction l with
  | nil => intro acc; simp
  | cons a t ih =>
    intro acc
    by_cases h : p a
    · simp only [List.foldl_cons, h, if_pos, List.filter_cons_of_pos h, List.map_cons]
      rw [ih]
      simp
    · simp only [List.foldl_cons, h, Bool.false_eq_true, if_false,
        List.filter_cons_of_neg (by simpa using h)]
      rw [ih]

end FoldLemmas

section PayloadBuilderLemmas

/-- `prepare_text_input` in closed form: the query followed by the joined
per-attachment blocks, in attachment order. -/
theorem prepare_text_input_eq (req : QueryRequest) :
    prepare_text_input req
      = req.query ++ String.join ((req.attachments.getD []).map textInputBlock) :=
  foldl_append_eq_join textInputBlock (req.attachments.getD []) req.query

/-- When no attachment is an image, `prepare_input` takes the plain-string
branch, in closed form. -/
theorem prepare_input_of_no_images (req : QueryRequest)
    (h : (req.attachments.getD []).any isImageAttachment = false) :
    prepare_input req
      = .text (req.query
          ++ String.join ((req.attachments.getD []).map plainBlock)) := by
  unfold prepare_input
  simp only [h, Bool.not_false, if_pos]
  rw [foldl_append_eq_join]

/-- When at least one attachment is an image, `prepare_input` returns the
one-element multimodal list, in closed form: one text item built from the
query and the non-image attachments, then one image item per image
attachment, both passes preserving attachment order. -/
theorem prepare_input_of_images (req : QueryRequest)
    (h : (req.attachments.getD []).any isImageAttachment = true) :
    prepare_input req
      = .multimodal [
          { role := "user"
            type := "message"
            content :=
              ContentItem.input_text (req.query ++ String.join
                (((req.attachments.getD []).filter
                    (fun a => !isImageAttachment a)).map plainBlock))
              :: ((req.attachments.getD []).filter isImageAttachment).map
                  (fun a => ContentItem.input_image "auto"
                    ("data:" ++ a.content_type ++ ";base64," ++ a.content)) }] := by
  unfold prepare_input
  simp only [h, Bool.not_true, if_neg, Bool.false_eq_true, if_false]
  rw [foldl_ite_snoc_eq_map]
  rw [foldl_ite_append_eq_join (fun a => !isImageAttachment a) plainBlock]
  simp

end PayloadBuilderLemmas

section SubstringLemmas

/-- `List.isPrefixOf` as an existential over character lists. -/
theorem isPrefixOf_eq_true_iff :
    ∀ (l₁ l₂ : List Char), l₁.isPrefixOf l₂ = true ↔ ∃ v, l₂ = l₁ ++ v := by
  intro l₁
  induction l₁ with
  | nil =>
    intro l₂
    simp [List.isPrefixOf]
  | cons a as ih =>
    intro l₂
    cases l₂ with
    | nil => simp [List.isPrefixOf]
    | cons b bs =>
      simp only [List.isPrefixOf, Bool.and_eq_true, beq_iff_eq, ih bs,
        List.cons_append, List.cons.injEq]
      constructor
      · rintro ⟨hab, v, hv⟩
        exact ⟨v, hab.symm, hv⟩
      · rintro ⟨v, hab, hv⟩
        exact ⟨hab.symm, v, hv⟩

/-- `containsSubstr s t` holds exactly when `t`'s characters occur as a
contiguous segment of `s`'s characters. -/
theorem containsSubstr_iff (s t : String) :
    containsSubstr s t = true ↔ ∃ u v : List Char, s.data = u ++ t.data ++ v := by
  unfold containsSubstr
  rw [List.any_eq_true]
  constructor
  · rintro ⟨i, _, hpre⟩
    obtain ⟨v, hv⟩ := (isPrefixOf_eq_true_iff t.data (s.data.drop i)).mp hpre
    refine ⟨s.data.take i, v, ?_⟩
    conv_lhs => rw [← List.take_append_drop i s.data]
    rw [hv, List.append_assoc]
  · rintro ⟨u, v, huv⟩
    refine ⟨u.length, ?_, ?_⟩
    · rw [List.mem_range]
      have : s.data.length = u.length + (t.data.length + v.length) := by
        rw [huv]; simp [List.length_append, Nat.add_assoc]
      omega
    · rw [isPrefixOf_eq_true_iff]
      refine ⟨v, ?_⟩
      rw [huv, List.append_assoc, List.drop_left]

/-- Every string contains itself. -/
theorem containsSubstr_self (t : String) : containsSubstr t t = true := by
  rw [containsSubstr_iff]
  exact ⟨[], [], by simp⟩

/-- A substring survives prepending. -/
theorem containsSubstr_append_left (u s t : String)
    (h : containsSubstr s t = true) : containsSubstr (u ++ s) t = true := by
  rw [containsSubstr_iff] at h ⊢
  obtain ⟨a, b, hab⟩ := h
  exact ⟨u.data ++ a, b, by rw [String.data_append, hab]; simp [List.append_assoc]⟩

/-- A substring survives appending. -/
theorem containsSubstr_append_right (s u t : String)
    (h : containsSubstr s t = true) : containsSubstr (s ++ u) t = true := by
  rw [containsSubstr_iff] at h ⊢
  obtain ⟨a, b, hab⟩ := h
  exact ⟨a, b ++ u.data, by rw [String.data_append, hab]; simp [List.append_assoc]⟩

/-- Containment is transitive across an intermediate string. -/
theorem containsSubstr_trans (s t w : String)
    (hst : containsSubstr s t = true) (htw : containsSubstr t w = true) :
    containsSubstr s w = true := by
  rw [containsSubstr_iff] at hst htw ⊢
  obtain ⟨a, b, hab⟩ := hst
  obtain ⟨c, d, hcd⟩ := htw
  exact ⟨a ++ c, d ++ b, by rw [hab, hcd]; simp [List.append_assoc]⟩

/-- Joining the images of a list contains the image of each member. -/
theorem containsSubstr_join_of_mem (f : Attachment → String) :
    ∀ (l : List Attachment) (a : Attachment), a ∈ l →
      containsSubstr (String.join (l.map f)) (f a) = true := by
  intro l
  induction l with
  | nil => intro a ha; cases ha
  | cons b t ih =>
    intro a ha
    rw [List.map_cons, stringJoin_cons]
    rcases List.mem_cons.mp ha with hb | ht
    · subst hb
      exact containsSubstr_append_right _ _ _ (containsSubstr_self (f a))
    · exact containsSubstr_append_left _ _ _ (ih a ht)

end SubstringLemmas

/-- Claim C5: for every `QueryRequest`, `prepare_text_input` returns
`request.query` with exactly one block appended per attachment, in attachment
list order: `"\n\n[Attachment: <attachment_type>] <image>"` for an image
attachment and `"\n\n[Attachment: <attachment_type>]\n<content>"` with the
content verbatim otherwise; being a total function, it has no error
conditions. -/
theorem prepare_text_input_block_per_attachment (req : QueryRequest) :
    prepare_text_input req
      = req.query ++ String.join ((req.attachments.getD []).map (fun a =>
          if isImageAttachment a then
            "\n\n[Attachment: " ++ a.attachment_type ++ "] <image>"
          else
            "\n\n[Attachment: " ++ a.attachment_type ++ "]\n" ++ a.content)) := by
  rw [prepare_text_input_eq]
  rfl

/-- Claim C7: for every query, when the attachments are absent (`None`) or the
empty list, both `prepare_text_input` and `prepare_input` return exactly the
query (the latter as a plain string). -/
theorem prepare_bare_query_when_no_attachments (q : String) :
    prepare_text_input { query := q, attachments := none } = q
    ∧ prepare_input { query := q, attachments := none } = .text q
    ∧ prepare_text_input { query := q, attachments := some [] } = q
    ∧ prepare_input { query := q, attachments := some [] } = .text q :=
  ⟨rfl, rfl, rfl, rfl⟩

/-- Claim C6: for every `QueryRequest` in which no attachment has an image
content type, `prepare_input` returns exactly the string that
`prepare_text_input` returns. -/
theorem prepare_input_eq_text_input_of_no_images (req : QueryRequest)
    (h : ∀ a ∈ req.attachments.getD [], isImageAttachment a = false) :
    prepare_input req = .text (prepare_text_input req) := by
  have hany : (req.attachments.getD []).any isImageAttachment = false := by
    simp only [List.any_eq_false, Bool.not_eq_true]
    exact h
  rw [prepare_input_of_no_images req hany, prepare_text_input_eq]
  have hmap : (req.attachments.getD []).map plainBlock
      = (req.attachments.getD []).map textInputBlock := by
    apply List.map_congr_left
    intro a ha
    simp [plainBlock, textInputBlock, h a ha]
  rw [hmap]

/-- Witness for C6 at a concrete request with one text attachment. -/
theorem prepare_input_eq_text_input_of_no_images_witness :
    prepare_input ⟨"what happened?", some [⟨"log", "text/plain", "err"⟩]⟩
      = .text (prepare_text_input ⟨"what happened?", some [⟨"log", "text/plain", "err"⟩]⟩) :=
  prepare_input_eq_text_input_of_no_images _ (by decide)

/-- Claim C1: for every `QueryRequest`, `prepare_input` returns a plain string
iff no attachment has a content type in the fixed image-MIME set; otherwise it
returns a one-element list containing a single message with role `"user"` and
type `"message"` whose content is exactly one text item first (the query
followed by one block per non-image attachment in attachment order) followed
by exactly one image item per image attachment in original order, each image
item with detail `"auto"` and `image_url = "data:" + content_type + ";base64,"
+ content`. -/
theorem prepare_input_string_or_multimodal (req : QueryRequest) :
    ((∃ s, prepare_input req = .text s)
        ↔ ∀ a ∈ req.attachments.getD [], isImageAttachment a = false)
    ∧ ((∃ a ∈ req.attachments.getD [], isImageAttachment a = true) →
        prepare_input req = .multimodal [
          { role := "user"
            type := "message"
            content :=
              ContentItem.input_text (req.query ++ String.join
                (((req.attachments.getD []).filter
                    (fun a => !isImageAttachment a)).map (fun a =>
                  "\n\n[Attachment: " ++ a.attachment_type ++ "]\n" ++ a.content)))
              :: ((req.attachments.getD []).filter isImageAttachment).map
                  (fun a => ContentItem.input_image "auto"
                    ("data:" ++ a.content_type ++ ";base64," ++ a.content)) }]) := by
  constructor
  · cases hany : (req.attachments.getD []).any isImageAttachment with
    | true =>
      constructor
      · rintro ⟨s, hs⟩
        rw [prepare_input_of_images req hany] at hs
        cases hs
      · intro hnone
        obtain ⟨a, ha, hpa⟩ := List.any_eq_true.mp hany
        rw [hnone a ha] at hpa
        cases hpa
    | false =>
      constructor
      · intro _
        simpa only [List.any_eq_false, Bool.not_eq_true] using hany
      · intro _
        exact ⟨_, prepare_input_of_no_images req hany⟩
  · intro himg
    have hany : (req.attachments.getD []).any isImageAttachment = true :=
      List.any_eq_true.mpr (by
        obtain ⟨a, ha, hpa⟩ := himg
        exact ⟨a, ha, hpa⟩)
    rw [prepare_input_of_images req hany]
    rfl

/-- Witness for C1 at a concrete request holding one text and one image
attachment. -/
theorem prepare_input_string_or_multimodal_witness :
    prepare_input ⟨"q", some [⟨"log", "text/plain", "log line"⟩,
        ⟨"screenshot", "image/png", "iVBOR"⟩]⟩
      = .multimodal [
          { role := "user"
            type := "message"
            content := [ContentItem.input_text "q\n\n[Attachment: log]\nlog line",
              ContentItem.input_image "auto" "data:image/png;base64,iVBOR"] }] := by
  have h := (prepare_input_string_or_multimodal
    ⟨"q", some [⟨"log", "text/plain", "log line"⟩,
      ⟨"screenshot", "image/png", "iVBOR"⟩]⟩).2 (by decide)
  exact h.trans (by rfl)

/-- Counterexample to claim C3 as stated: a request whose query equals the
image attachment's content. The attachment is an image, yet its raw content
`"x"` does occur as a substring of `prepare_text_input`'s output (through the
query), so "raw content never appears as a substring of the output" fails. -/
theorem prepare_text_input_substring_cex :
    isImageAttachment ⟨"screenshot", "image/png", "x"⟩ = true
    ∧ containsSubstr
        (prepare_text_input ⟨"x", some [⟨"screenshot", "image/png", "x"⟩]⟩)
        "x" = true
    ∧ prepare_text_input ⟨"x", some [⟨"screenshot", "image/png", "x"⟩]⟩
        = "x\n\n[Attachment: screenshot] <image>" := by
  refine ⟨rfl, by decide, rfl⟩

/-- Claim C3, amended: for every `QueryRequest` with at least one image
attachment, the output of `prepare_text_input` never *includes* an image
attachment's content: it is unchanged when the content of every image
attachment is replaced by an arbitrary string, and the literal `<image>`
placeholder does appear as a substring of the output. -/
theorem prepare_text_input_image_content_never_included (req : QueryRequest)
    (h : ∃ a ∈ req.attachments.getD [], isImageAttachment a = true) :
    (∀ replacement : Attachment → String,
      prepare_text_input ⟨req.query, some ((req.attachments.getD []).map (fun a =>
          if isImageAttachment a then { a with content := replacement a } else a))⟩
        = prepare_text_input req)
    ∧ containsSubstr (prepare_text_input req) "<image>" = true := by
  constructor
  · intro replacement
    rw [prepare_text_input_eq, prepare_text_input_eq]
    simp only [Option.getD_some, List.map_map]
    congr 1
    congr 1
    apply List.map_congr_left
    intro a _
    have hsame : isImageAttachment { a with content := replacement a }
        = isImageAttachment a := rfl
    by_cases himg : isImageAttachment a = true
    · simp [Function.comp, himg, hsame, textInputBlock]
    · simp [Function.comp, himg]
  · obtain ⟨a, ha, himg⟩ := h
    rw [prepare_text_input_eq]
    apply containsSubstr_append_left
    apply containsSubstr_trans _ (textInputBlock a)
    · exact containsSubstr_join_of_mem textInputBlock _ a ha
    · have hb : textInputBlock a
          = ("\n\n[Attachment: " ++ a.attachment_type) ++ "] <image>" := by
        simp [textInputBlock, himg, String.append_assoc]
      rw [hb]
      apply containsSubstr_append_left
      decide

/-- Witness for the amended C3 at a concrete request with one image
attachment. -/
theorem prepare_text_input_image_content_never_included_witness :
    containsSubstr
      (prepare_text_input ⟨"what is this?", some [⟨"screenshot", "image/png", "iVBOR"⟩]⟩)
      "<image>" = true :=
  (prepare_text_input_image_content_never_included
    ⟨"what is this?", some [⟨"screenshot", "image/png", "iVBOR"⟩]⟩ (by decide)).2



/-- When the as-is parse does not yield a dict, `parse_arguments_string`
proceeds to the brace-wrapping tier. -/
theorem parse_arguments_string_of_not_obj (raw : String)
    (h : objEntries (json_loads raw) = none) :
    parse_arguments_string raw
      = (if !(py_strip raw).data.isEmpty && !py_startswith (py_strip raw) "\x7b" then
          match json_loads ("\x7b" ++ py_strip raw ++ "\x7d") with
          | some (JsonValue.obj entries) => entries
          | _ => [("args", JsonValue.str raw)]
        else [("args", JsonValue.str raw)]) := by
  cases hj : json_loads raw with
  | none => simp only [parse_arguments_string, hj]
  | some v =>
    cases v with
    | obj entries => rw [hj] at h; simp [objEntries] at h
    | null => simp only [parse_arguments_string, hj]
    | bool b => simp only [parse_arguments_string, hj]
    | num n => simp only [parse_arguments_string, hj]
    | str s => simp only [parse_arguments_string, hj]
    | arr xs => simp only [parse_arguments_string, hj]

/-- Claim C4: `parse_arguments_string` is total (it always returns a mapping
and never raises, being a Lean function into association lists) and follows
the three tiers of the source: a strict parse yielding a dict is returned;
otherwise, when the stripped string is non-empty and does not start with an
opening brace and the brace-wrapped reparse yields a dict, that dict is
returned; otherwise the single-entry mapping binding `"args"` to the original
string verbatim is returned. The three concrete examples of the claim are
included. -/
theorem parse_arguments_string_tiers :
    (∀ raw entries, json_loads raw = some (JsonValue.obj entries) →
        parse_arguments_string raw = entries)
    ∧ (∀ raw entries, objEntries (json_loads raw) = none →
        (!(py_strip raw).data.isEmpty && !py_startswith (py_strip raw) "\x7b") = true →
        json_loads ("\x7b" ++ py_strip raw ++ "\x7d") = some (JsonValue.obj entries) →
        parse_arguments_string raw = entries)
    ∧ (∀ raw, objEntries (json_loads raw) = none →
        ((!(py_strip raw).data.isEmpty && !py_startswith (py_strip raw) "\x7b") = false
          ∨ objEntries (json_loads ("\x7b" ++ py_strip raw ++ "\x7d")) = none) →
        parse_arguments_string raw = [("args", JsonValue.str raw)])
    ∧ parse_arguments_string "\x7b\"a\":1\x7d" = [("a", JsonValue.num 1)]
    ∧ parse_arguments_string "\"a\":1" = [("a", JsonValue.num 1)]
    ∧ parse_arguments_string "not json" = [("args", JsonValue.str "not json")] := by
  refine ⟨?_, ?_, ?_, rfl, rfl, rfl⟩
  · intro raw entries h
    simp only [parse_arguments_string, h]
  · intro raw entries h1 h2 h3
    rw [parse_arguments_string_of_not_obj raw h1, h2]
    simp only [if_true]
    rw [h3]
  · intro raw h1 h2
    rw [parse_arguments_string_of_not_obj raw h1]
    rcases h2 with hc | hw
    · rw [hc]
      simp
    · by_cases hcond :
        (!(py_strip raw).data.isEmpty && !py_startswith (py_strip raw) "\x7b") = true
      · rw [hcond]
        simp only [if_true]
        cases hj : json_loads ("\x7b" ++ py_strip raw ++ "\x7d") with
        | none => simp
        | some v =>
          cases v with
          | obj entries => rw [hj] at hw; simp [objEntries] at hw
          | null => simp
          | bool b => simp
          | num n => simp
          | str s => simp
          | arr xs => simp
      · rw [Bool.not_eq_true] at hcond
        rw [hcond]
        simp

/-- Witness for C4: tier two applied at the concrete input `"a":1` of the
claim, each side condition discharged by evaluation. -/
theorem parse_arguments_string_tiers_witness :
    parse_arguments_string "\"a\":1" = [("a", JsonValue.num 1)] :=
  parse_arguments_string_tiers.2.1 "\"a\":1" [("a", JsonValue.num 1)] rfl rfl rfl

/-- Counterexample to claim C2 as stated: at the concrete call
`create_violation_stream("blocked")`, the generator yields five events
(`ResponseCreated`, `ContentPartAdded`, `OutputTextDelta`, `OutputTextDone`,
`ResponseCompleted`), not exactly four. -/
theorem create_violation_stream_four_events_cex :
    (create_violation_stream "blocked" none).length = 5
    ∧ ¬(create_violation_stream "blocked" none).length = 4 := by
  refine ⟨rfl, by decide⟩

/-- Claim C2, amended: for every message and optional shield model,
`create_violation_stream` produces exactly 5 events, in the fixed order
`ResponseCreated`, `ContentPartAdded`, `OutputTextDelta`, `OutputTextDone`,
`ResponseCompleted`, with monotonically increasing sequence numbers starting
at 0 where applicable: `ContentPartAdded` carries sequence number 0 at
content index 0 with an empty text part, `OutputTextDelta` carries sequence
number 1 at content index 1 with the full message as a single delta,
`OutputTextDone` carries sequence number 2 at content index 2 with the full
message as final text, and the final event's response object has status
`"completed"` and one output message whose text equals the message. -/
theorem create_violation_stream_event_sequence (message : String)
    (shield_model : Option String) :
    (create_violation_stream message shield_model).length = 5
    ∧ (∃ r, (create_violation_stream message shield_model)[0]?
        = some (.ResponseCreated r))
    ∧ (∃ rid iid, (create_violation_stream message shield_model)[1]?
        = some (.ContentPartAdded 0 rid iid 0 { text := "" } 0))
    ∧ (∃ iid, (create_violation_stream message shield_model)[2]?
        = some (.OutputTextDelta 1 message iid 1 1))
    ∧ (∃ iid, (create_violation_stream message shield_model)[3]?
        = some (.OutputTextDone 2 message iid 2 2))
    ∧ (∃ r, (create_violation_stream message shield_model)[4]?
        = some (.ResponseCompleted r)
        ∧ r.status = "completed"
        ∧ ∃ mid, r.output
            = [⟨mid, [⟨message⟩], "assistant", "completed"⟩]) :=
  ⟨rfl, ⟨_, rfl⟩, ⟨_, _, rfl⟩, ⟨_, rfl⟩, ⟨_, rfl⟩, ⟨_, rfl, rfl, _, rfl⟩⟩

/-- Claim C8: in every run of `create_violation_stream`, the response object
of the first (`ResponseCreated`) event has status `"in_progress"` and empty
output, and the response object of the final (`ResponseCompleted`) event
keeps the first event's `id`, `created_at` and `model` values while only
`output` (now a single completed assistant message carrying the full message
text) and `status` (now `"completed"`) differ. -/
theorem create_violation_stream_frame (message : String)
    (shield_model : Option String) :
    ∃ r0 r4 : OpenAIResponseObject,
      (create_violation_stream message shield_model).head?
          = some (.ResponseCreated r0)
      ∧ (create_violation_stream message shield_model).getLast?
          = some (.ResponseCompleted r4)
      ∧ r0.status = "in_progress" ∧ r0.output = []
      ∧ r4.id = r0.id ∧ r4.created_at = r0.created_at ∧ r4.model = r0.model
      ∧ r4.status = "completed"
      ∧ r4.output
          = [⟨"msg_shield_violation_4", [⟨message⟩], "assistant", "completed"⟩] :=
  ⟨_, _, rfl, rfl, rfl, rfl, rfl, rfl, rfl, rfl, rfl⟩

/-- Claim C9: the `model` field of the stream's response object equals the
provided `shield_model` exactly when it is a non-empty string; for the empty
string (provided but falsy under Python `or`) and for `None` it is the
default label `"shield"`. -/
theorem create_violation_stream_model_field (message : String) :
    (∀ s : String, s ≠ "" →
      ∃ r, (create_violation_stream message (some s)).head?
          = some (.ResponseCreated r) ∧ r.model = s)
    ∧ (∃ r, (create_violation_stream message (some "")).head?
        = some (.ResponseCreated r) ∧ r.model = "shield")
    ∧ (∃ r, (create_violation_stream message none).head?
        = some (.ResponseCreated r) ∧ r.model = "shield") := by
  refine ⟨?_, ⟨_, rfl, rfl⟩, ⟨_, rfl, rfl⟩⟩
  intro s hs
  refine ⟨_, rfl, ?_⟩
  simp [orDefaultStr, hs]

/-- Witness for C9 at the concrete shield model `"granite-guardian"`. -/
theorem create_violation_stream_model_field_witness :
    ∃ r, (create_violation_stream "blocked" (some "granite-guardian")).head?
        = some (.ResponseCreated r) ∧ r.model = "granite-guardian" :=
  (create_violation_stream_model_field "blocked").1 "granite-guardian" (by decide)

/-- Claim C10: every invocation of `create_violation_stream` uses the same
constants regardless of its arguments: response id `"resp_shield_violation"`,
`created_at` 0, intermediate item ids `"msg_shield_violation_1"`,
`"msg_shield_violation_2"`, `"msg_shield_violation_3"`, final output message
id `"msg_shield_violation_4"`, and default model label `"shield"` when no
shield model is given. -/
theorem create_violation_stream_constants (message : String)
    (shield_model : Option String) :
    (∃ r0 pt r4,
      create_violation_stream message shield_model
        = [ .ResponseCreated r0
          , .ContentPartAdded 0 "resp_shield_violation" "msg_shield_violation_1" 0 pt 0
          , .OutputTextDelta 1 message "msg_shield_violation_2" 1 1
          , .OutputTextDone 2 message "msg_shield_violation_3" 2 2
          , .ResponseCompleted r4 ]
      ∧ r0.id = "resp_shield_violation" ∧ r0.created_at = 0
      ∧ r4.id = "resp_shield_violation" ∧ r4.created_at = 0
      ∧ ∃ c, r4.output
          = [⟨"msg_shield_violation_4", c, "assistant", "completed"⟩])
    ∧ (∃ r, (create_violation_stream message none).head?
        = some (.ResponseCreated r) ∧ r.model = "shield") :=
  ⟨⟨_, _, _, rfl, rfl, rfl, rfl, rfl, _, rfl⟩, ⟨_, rfl, rfl⟩⟩
